import Mathlib

/-!
Verification of the MandelBro terrain and asset-placement core
(`src/mandelbrot.py`, `src/asset_generator.py`) against its design
specification.

The Python code is shallowly embedded over exact arithmetic: `ℚ` replaces
IEEE floats wherever the program only adds, multiplies, divides and
compares (the escape-time iteration, height maps, masks, counts), and
`ℝ` is used only where the program takes a square root
(`np.sqrt`, in the slope field).  Python ints are `ℤ`/`ℕ`, NumPy arrays
are `List (List _)` in row-major order, and the NumPy global random
generator is modelled by an explicit state value threaded to each call
(every call site in the verified code reseeds it before use).
-/

/- Batteries marks the core rational operations `@[irreducible]`, which
blocks `decide` on concrete rational computations; restore the default
reducibility for this file so that witnesses evaluate in the kernel. -/
attribute [local semireducible] Rat.add Rat.mul Rat.inv Rat.sub

namespace MandelBro

/-! ## Generic list helpers -/

/-- Element of a grid (list of rows) at row `y`, column `x`, defaulting
to `0` out of bounds (the embedded code only reads in bounds). -/
def getQ (g : List (List ℚ)) (y x : ℕ) : ℚ :=
  (g.getD y []).getD x 0

/-- Real-valued grid access, defaulting to `0` out of bounds. -/
def getR (g : List (List ℝ)) (y x : ℕ) : ℝ :=
  (g.getD y []).getD x 0

/-! ## `mandelbrot.py` — escape-time iteration (lines 44-82) -/

/-- One Mandelbrot step `z ← z² + c` on complex numbers represented as
real/imaginary pairs of rationals. -/
def cstep (z c : ℚ × ℚ) : ℚ × ℚ :=
  (z.1 * z.1 - z.2 * z.2 + c.1, 2 * z.1 * z.2 + c.2)

/-- Squared modulus; the escape test `np.abs(z) > 2.0` is embedded as
`absSq z > 4`, which is equivalent and keeps the arithmetic rational. -/
def absSq (z : ℚ × ℚ) : ℚ :=
  z.1 * z.1 + z.2 * z.2

/-- Per-cell escape-time loop.  `fuel` iterations remain, `z` is the
current iterate and `i` the current iteration index; a cell that first
exceeds the escape radius at index `i` yields `i`, and a cell that never
escapes yields `maxIter` (line 80, `output[mask] = self.max_iterations`).
`maxIter` is an `ℤ` because the Python `int` is unvalidated and may be
non-positive (then the loop body runs zero times). -/
def escapeAuxZ (c : ℚ × ℚ) (maxIter : ℤ) : ℕ → ℚ × ℚ → ℕ → ℤ
  | 0, _, _ => maxIter
  | fuel + 1, z, i =>
    let z2 := cstep z c
    if 4 < absSq z2 then (i : ℤ) else escapeAuxZ c maxIter fuel z2 (i + 1)

/-- Iteration count of one grid cell: the value `calculate_mandelbrot`
stores for the cell with parameter `c`.  This is the per-cell view of the
masked loop of lines 66-80 *with* the early exit: the cell stops being
updated as soon as it escapes. -/
def escapeIndex (c : ℚ × ℚ) (maxIter : ℤ) : ℤ :=
  escapeAuxZ c maxIter maxIter.toNat (0, 0) 0

/-- Embeds `np.linspace a b n`: `n` evenly spaced samples from `a` to `b`
inclusive (`[a]` for `n = 1`, `[]` for `n = 0`). -/
def linspace (a b : ℚ) (n : ℕ) : List ℚ :=
  if n = 0 then []
  else if n = 1 then [a]
  else (List.range n).map fun i : ℕ => a + (b - a) * (i : ℚ) / ((n : ℚ) - 1)

/-- Embeds `MandelbrotGenerator.calculate_mandelbrot` (lines 44-82): the grid of
iteration counts, row `j` at imaginary part `ys[j]`, column `i` at real
part `xs[i]` (the `np.meshgrid` layout, shape `height × width`). -/
def calculate_mandelbrot (width height : ℕ) (maxIter : ℤ)
    (xMin xMax yMin yMax : ℚ) : List (List ℤ) :=
  (linspace yMin yMax height).map fun y =>
    (linspace xMin xMax width).map fun x => escapeIndex (x, y) maxIter

/-! ## `mandelbrot.py` — full-iteration reference loop (claim C6)

The source loop keeps per-cell state `(z, mask, output)` and breaks once
every cell has escaped (lines 76-77).  `fullStep`/`fullCell` embed the
same loop body run for the *full* `max_iterations` passes with no early
exit, so that the optimization can be compared against it. -/

/-- One pass of the masked loop body (lines 68-74) on the state of one cell
`(z, mask, output)` at iteration index `i`. -/
def fullStep (c : ℚ × ℚ) (i : ℕ) (s : (ℚ × ℚ) × Bool × ℤ) :
    (ℚ × ℚ) × Bool × ℤ :=
  let z := if s.2.1 then cstep s.1 c else s.1
  let diverged := decide (4 < absSq z)
  ⟨z, s.2.1 && !diverged, if diverged && s.2.1 then (i : ℤ) else s.2.2⟩

/-- Run `fullStep` for iteration indices `i, i+1, …, i+fuel-1`. -/
def fullLoopAux (c : ℚ × ℚ) : ℕ → ℕ → (ℚ × ℚ) × Bool × ℤ → (ℚ × ℚ) × Bool × ℤ
  | 0, _, s => s
  | fuel + 1, i, s => fullLoopAux c fuel (i + 1) (fullStep c i s)

/-- Iteration count of one cell when the loop body runs for the full
`max_iterations` passes (no early break), followed by line 80. -/
def fullCell (c : ℚ × ℚ) (maxIter : ℤ) : ℤ :=
  let s := fullLoopAux c maxIter.toNat 0 ⟨(0, 0), true, 0⟩
  if s.2.1 then maxIter else s.2.2

/-- Variant of `calculate_mandelbrot` with the loop run for the full iteration count
(the reference the early-exit optimization is compared against). -/
def calculate_mandelbrot_full (width height : ℕ) (maxIter : ℤ)
    (xMin xMax yMin yMax : ℚ) : List (List ℤ) :=
  (linspace yMin yMax height).map fun y =>
    (linspace xMin xMax width).map fun x => fullCell (x, y) maxIter

/-! ## `mandelbrot.py` — generator state and height map (lines 20-117) -/

/-- The mutable state of a `MandelbrotGenerator` instance (constructor,
lines 29-34; the colormap is presentation-only and omitted). -/
structure MandelbrotGenerator where
  width : ℕ
  height : ℕ
  max_iterations : ℤ
  center_x : ℚ
  center_y : ℚ
  zoom : ℚ
deriving DecidableEq

/-- The generator as constructed by `__init__` with its default center
`(-0.5, 0)` and zoom `1.0`. -/
def mkGenerator (width height : ℕ) (maxIter : ℤ) : MandelbrotGenerator :=
  ⟨width, height, maxIter, -(1/2), 0, 1⟩

/-- The `custom_params` dict of `generate_height_map`: each key may be
present or absent (lines 95-103). -/
structure CustomParams where
  center_x : Option ℚ := none
  center_y : Option ℚ := none
  zoom : Option ℚ := none
  max_iterations : Option ℤ := none

/-- Lines 94-103: overwrite the stored fields with whichever custom
parameters are present. -/
def applyCustomParams (g : MandelbrotGenerator) :
    Option CustomParams → MandelbrotGenerator
  | none => g
  | some p =>
    { g with
      center_x := p.center_x.getD g.center_x
      center_y := p.center_y.getD g.center_y
      zoom := p.zoom.getD g.zoom
      max_iterations := p.max_iterations.getD g.max_iterations }

/-- Embeds `MandelbrotGenerator.generate_height_map` (lines 84-117).  The method
mutates `self` (lines 95-103) and returns the normalized height map, so
the embedding returns the updated generator together with the map.
Bounds: `center ± 1.5/zoom` in x and `center ± 1.0/zoom` in y.  The map
is `iterations / max_iterations` elementwise. -/
def generate_height_map (g : MandelbrotGenerator) (cp : Option CustomParams) :
    MandelbrotGenerator × List (List ℚ) :=
  let g2 := applyCustomParams g cp
  let xMin := g2.center_x - (3/2) / g2.zoom
  let xMax := g2.center_x + (3/2) / g2.zoom
  let yMin := g2.center_y - 1 / g2.zoom
  let yMax := g2.center_y + 1 / g2.zoom
  let iterations :=
    calculate_mandelbrot g2.width g2.height g2.max_iterations xMin xMax yMin yMax
  (g2, iterations.map (List.map fun n : ℤ => (n : ℚ) / (g2.max_iterations : ℚ)))

/-- Line 280: the "blocky" quantization `np.floor(height_map * 10) / 10`
applied by `generate_world_from_description` as a post-process. -/
def quantize_height_map (hm : List (List ℚ)) : List (List ℚ) :=
  hm.map (List.map fun v => ((⌊v * 10⌋ : ℤ) : ℚ) / 10)

/-! ## `mandelbrot.py` — 3D mesh (lines 164-205) -/

/-- The dictionary returned by `convert_to_3d_mesh_data`. -/
structure MeshData where
  vertices : List (ℚ × ℚ × ℚ)
  faces : List (ℕ × ℕ × ℕ)
  normals : List (ℚ × ℚ × ℚ)
deriving DecidableEq

/-- Embeds `MandelbrotGenerator.convert_to_3d_mesh_data` (lines 164-205):
vertices in row-major order with positions
`((x − w/2)/w, (y − h/2)/h, hm[y][x]·scale)`, two triangles per interior
cell, and one placeholder upward normal per vertex. -/
def convert_to_3d_mesh_data (hm : List (List ℚ)) (scale_factor : ℚ) : MeshData :=
  let h := hm.length
  let w := (hm.headD []).length
  let vertices := (List.range h).flatMap fun y : ℕ =>
    (List.range w).map fun x : ℕ =>
      (((x : ℚ) - w / 2) / w, ((y : ℚ) - h / 2) / h, getQ hm y x * scale_factor)
  { vertices := vertices
    faces := (List.range (h - 1)).flatMap fun y =>
      (List.range (w - 1)).flatMap fun x =>
        [(y * w + x, y * w + x + 1, y * w + x + w),
         (y * w + x + 1, y * w + x + w + 1, y * w + x + w)]
    normals := List.replicate vertices.length (0, 0, 1) }

/-! ## `asset_generator.py` — asset registry (lines 30-251)

Each entry of `self.asset_types` becomes an `AssetProps` record; the
`placement` strings become a closed enumeration (the registry only ever
holds these seven values and `load_custom_assets` — file I/O — is outside
the verified core). -/

/-- The `placement` field values occurring in the registry. -/
inductive Placement where
  | land
  | water
  | sky
  | water_body
  | water_flow
  | water_crossing
  | land_depression
deriving DecidableEq

/-- One registry entry of `self.asset_types`. -/
structure AssetProps where
  height_range : ℚ × ℚ
  width_range : ℚ × ℚ
  color_range : (ℚ × ℚ × ℚ) × (ℚ × ℚ × ℚ)
  placement : Placement
  min_height : ℚ
  max_height : ℚ
  min_slope : ℚ
  max_slope : ℚ
deriving DecidableEq

/-- The `tree` entry (lines 31-40), also the fallback for unknown asset
types (lines 327-329). -/
def treeProps : AssetProps :=
  ⟨(1/2, 5), (3/10, 2), ((0, 3/10, 0), (0, 8/10, 0)), .land, 2/10, 8/10, 0, 4/10⟩

/-- The built-in registry `self.asset_types` (lines 30-251). -/
def assetTypes : String → Option AssetProps
  | "tree" => some treeProps
  | "rock" => some ⟨(2/10, 3/2), (3/10, 2), ((3/10, 3/10, 3/10), (7/10, 7/10, 7/10)),
      .land, 1/10, 9/10, 0, 8/10⟩
  | "flower" => some ⟨(1/20, 2/10), (1/20, 2/10), ((8/10, 0, 0), (1, 8/10, 8/10)),
      .land, 2/10, 7/10, 0, 3/10⟩
  | "grass" => some ⟨(1/20, 3/10), (1/20, 2/10), ((0, 1/2, 0), (1/2, 8/10, 0)),
      .land, 2/10, 7/10, 0, 1/2⟩
  | "bush" => some ⟨(2/10, 1), (3/10, 3/2), ((0, 3/10, 0), (0, 6/10, 0)),
      .land, 2/10, 7/10, 0, 4/10⟩
  | "cactus" => some ⟨(1/2, 3), (2/10, 1), ((0, 4/10, 0), (0, 6/10, 0)),
      .land, 1/10, 1/2, 0, 3/10⟩
  | "water" => some ⟨(1/10, 1/2), (1, 5), ((0, 0, 1/2), (0, 1/2, 1)),
      .water, 0, 3/10, 0, 1/10⟩
  | "cloud" => some ⟨(2/10, 1), (1, 5), ((8/10, 8/10, 8/10), (1, 1, 1)),
      .sky, 0, 1, 0, 1⟩
  | "house" => some ⟨(1, 3), (2, 5), ((1/2, 3/10, 0), (8/10, 6/10, 4/10)),
      .land, 2/10, 6/10, 0, 2/10⟩
  | "castle" => some ⟨(3, 10), (5, 15), ((1/2, 1/2, 1/2), (7/10, 7/10, 7/10)),
      .land, 1/2, 9/10, 0, 3/10⟩
  | "bridge" => some ⟨(1/2, 2), (1, 3), ((1/2, 3/10, 0), (7/10, 1/2, 2/10)),
      .water_crossing, 2/10, 1/2, 0, 3/10⟩
  | "path" => some ⟨(1/20, 1/10), (1/2, 1), ((6/10, 1/2, 3/10), (8/10, 7/10, 1/2)),
      .land, 1/10, 8/10, 0, 4/10⟩
  | "river" => some ⟨(1/10, 1/2), (1, 5), ((0, 0, 1/2), (0, 1/2, 1)),
      .water_flow, 1/10, 7/10, 1/20, 1/2⟩
  | "lake" => some ⟨(1/10, 1/2), (5, 20), ((0, 0, 1/2), (0, 1/2, 1)),
      .water_body, 1/10, 4/10, 0, 1/10⟩
  | "mountain" => some ⟨(5, 20), (5, 20), ((3/10, 3/10, 3/10), (7/10, 7/10, 7/10)),
      .land, 6/10, 1, 3/10, 1⟩
  | "hill" => some ⟨(1, 5), (3, 10), ((0, 1/2, 0), (1/2, 8/10, 0)),
      .land, 3/10, 7/10, 1/10, 1/2⟩
  | "valley" => some ⟨(1, 5), (5, 15), ((0, 1/2, 0), (1/2, 8/10, 0)),
      .land_depression, 2/10, 6/10, 1/10, 1/2⟩
  | "canyon" => some ⟨(5, 15), (2, 10), ((1/2, 3/10, 0), (8/10, 6/10, 4/10)),
      .land_depression, 3/10, 7/10, 1/2, 1⟩
  | "volcano" => some ⟨(5, 15), (5, 15), ((1/2, 0, 0), (8/10, 3/10, 0)),
      .land, 6/10, 1, 3/10, 1⟩
  | "cave" => some ⟨(1, 5), (1, 5), ((1/10, 1/10, 1/10), (3/10, 3/10, 3/10)),
      .land, 2/10, 8/10, 0, 1⟩
  | "sand" => some ⟨(1/20, 2/10), (1, 10), ((8/10, 7/10, 4/10), (1, 9/10, 6/10)),
      .land, 1/10, 3/10, 0, 2/10⟩
  | "snow" => some ⟨(1/20, 2/10), (1, 10), ((8/10, 8/10, 9/10), (1, 1, 1)),
      .land, 7/10, 1, 0, 1⟩
  | _ => none

/-- Registry lookup with the unknown-type fallback to `tree`
(lines 327-331; the warning is a non-fatal print). -/
def lookupAsset (asset_type : String) : AssetProps :=
  (assetTypes asset_type).getD treeProps

/-! ## Random generator model

`np.random` / `random` keep implicit global state that the code reseeds
with an explicit seed before every draw used here (`np.random.seed(seed)`
whenever `seed is not None`, and `place_assets` passes a concrete seed to
every call).  The generator is modelled by an explicit state value and a
deterministic stand-in for its draws: `npChoice` returns `k` distinct
indices below `n` (a rotation of the row-major enumeration) and
`uniformDraw` returns a value in `[a, b)`.  The model keeps exactly the
properties the design relies on — determinism given the seed, distinct
in-range indices, in-range uniforms — and abstracts the MT19937 bit
stream, which is out of scope. -/

/-- The global state of the pseudo-random generator. -/
structure RandState where
  val : ℤ
deriving DecidableEq

/-- Model of `np.random.seed(s)` / `random.seed(s)`: the state becomes a pure
function of the seed.  `np.random.seed` rejects seeds outside
`[0, 2^32)` with a `ValueError`; the model accepts any integer.  The
collapsed error path does not affect the determinism statements, since
on an out-of-range seed the code fails identically on both compared
calls. -/
def npSeed (s : ℤ) : RandState := ⟨s⟩

/-- Model of `np.random.choice(n, size=k, replace=False)` (line 394): `k` distinct
indices drawn from `0..n-1`, a deterministic function of the generator
state.  Requires `k ≤ n` in NumPy; the caller clamps `k` accordingly. -/
def npChoice (st : RandState) (n k : ℕ) : List ℕ :=
  ((List.range n).rotate st.val.natAbs).take k

/-- Model of `np.random.randint(0, 1000000)` (line 457). -/
def npRandInt (st : RandState) : ℤ :=
  st.val.emod 1000000

/-- Model of `np.random.uniform(a, b)`: the `j`-th draw after seeding to state
`st`, always in `[a, b)` for `a < b` (in `[b, a)` degenerate otherwise;
the registry ranges are all increasing). -/
def uniformDraw (st : RandState) (j : ℕ) (a b : ℚ) : ℚ :=
  a + (b - a) * (((st.val.natAbs + j) % 1000 : ℕ) : ℚ) / 1000

/-! ## `asset_generator.py` — slope field (lines 291-307, 333-339) -/

/-- One-dimensional `np.gradient`: central differences inside, one-sided
differences at both ends.  `np.gradient` raises `ValueError` on an axis
with fewer than two samples; the embedding returns `0` there instead, so
every theorem that constrains the *values* of the slope-dependent
pipeline (slope field, eligibility, site counts) carries the hypothesis
that both grid dimensions are at least 2 — on smaller maps the real code
raises before computing anything.  The determinism statements are
unaffected by the collapsed error path: on such maps the code raises
identically on every compared call. -/
def grad1 (get : ℕ → ℚ) (n i : ℕ) : ℚ :=
  if n = 1 then 0
  else if i = 0 then get 1 - get 0
  else if i = n - 1 then get (n - 1) - get (n - 2)
  else (get (i + 1) - get (i - 1)) / 2

/-- Gradient `gx` along axis 1 (within each row). -/
def gradX (hm : List (List ℚ)) : List (List ℚ) :=
  hm.map fun row =>
    (List.range row.length).map fun i => grad1 (fun j => row.getD j 0) row.length i

/-- Gradient `gy` along axis 0 (down each column); the grid is
rectangular, so every row has the width of row 0. -/
def gradY (hm : List (List ℚ)) : List (List ℚ) :=
  (List.range hm.length).map fun y =>
    (List.range (hm.headD []).length).map fun x =>
      grad1 (fun j => getQ hm j x) hm.length y

/-- The squared gradient magnitude `gx**2 + gy**2` (line 305 before the
square root). -/
def slopeSq (hm : List (List ℚ)) : List (List ℚ) :=
  List.zipWith (List.zipWith fun a b => a ^ 2 + b ^ 2) (gradX hm) (gradY hm)

/-- Model of `np.max` over a flattened grid, modelled as a `max`-fold from `0`:
it agrees with `np.max` on the nonempty nonnegative grids (squared
slopes, square roots) it is applied to. -/
def npMaxQ (l : List ℚ) : ℚ := l.foldl max 0

/-- Real-valued `np.max`, same convention. -/
def npMaxR (l : List ℝ) : ℝ := l.foldl max 0

/-- Embeds `AssetGenerator.calculate_slope` (lines 291-307):
`np.sqrt(gx**2 + gy**2)` elementwise. -/
noncomputable def calculate_slope (hm : List (List ℚ)) : List (List ℝ) :=
  (slopeSq hm).map (List.map fun q : ℚ => Real.sqrt (q : ℝ))

/-- Lines 336-339 of `find_placement_locations`: divide the slope field
by its own maximum when that maximum is positive, otherwise leave it
unchanged. -/
noncomputable def normalized_slope (hm : List (List ℚ)) : List (List ℝ) :=
  let s := calculate_slope hm
  let m := npMaxR s.flatten
  if 0 < m then s.map (List.map fun v => v / m) else s

/-- The squared normalized slope, kept in `ℚ`.  Because `Real.sqrt` is a
monotone bijection of `[0, ∞)` and commutes with `max` and with division
by the (nonnegative) maximum, `normalized_slope` is exactly the
elementwise square root of this grid (`normalized_slope_eq_sqrt` below),
and every slope comparison of the source — always against a nonnegative
threshold — is the corresponding squared comparison here. -/
def slopeSqNorm (hm : List (List ℚ)) : List (List ℚ) :=
  let s := slopeSq hm
  let m := npMaxQ s.flatten
  if 0 < m then s.map (List.map fun v => v / m) else s

/-! ## `asset_generator.py` — placement masks (lines 341-379) -/

/-- Test `height_map <= 0.3` at one cell (`water_mask`, line 360). -/
def waterAt (hm : List (List ℚ)) (y x : ℕ) : Bool :=
  decide (getQ hm y x ≤ 3/10)

/-- Test `height_map > 0.3` at one cell (`land_mask`, line 361). -/
def landAt (hm : List (List ℚ)) (y x : ℕ) : Bool :=
  decide (3/10 < getQ hm y x)

/-- Model of `scipy.ndimage.binary_dilation` with the default cross-shaped
structuring element and zero border: a cell is set iff it or one of its
four in-bounds neighbours is set. -/
def dilate (p : ℕ → ℕ → Bool) (h w y x : ℕ) : Bool :=
  p y x || (decide (y + 1 < h) && p (y + 1) x) || (decide (0 < y) && p (y - 1) x)
    || (decide (x + 1 < w) && p y (x + 1)) || (decide (0 < x) && p y (x - 1))

/-- Index reflection of the default scipy boundary mode reflect
(`(d c b a | a b c d | d c b a)`). -/
def reflectIdx (len : ℕ) (i : ℤ) : ℕ :=
  if len = 0 then 0
  else
    let m := i.emod (2 * len)
    if m < len then m.toNat else (2 * len - 1 - m.toNat)

/-- Model of `scipy.ndimage.minimum_filter` with an `n × n` footprint of ones at
one cell (lines 370-372): the minimum of the reflected neighbourhood. -/
def minFilterAt (hm : List (List ℚ)) (n y x : ℕ) : ℚ :=
  let h := hm.length
  let w := (hm.headD []).length
  ((List.range n).flatMap fun dy : ℕ =>
    (List.range n).map fun dx : ℕ =>
      getQ hm (reflectIdx h ((y : ℤ) + (dy : ℤ) - ((n / 2 : ℕ) : ℤ)))
        (reflectIdx w ((x : ℤ) + (dx : ℤ) - ((n / 2 : ℕ) : ℤ)))).foldl min (getQ hm y x)

/-- The `height_mask` of line 342 at one cell. -/
def heightMaskAt (hm : List (List ℚ)) (props : AssetProps) (y x : ℕ) : Bool :=
  decide (props.min_height ≤ getQ hm y x) && decide (getQ hm y x ≤ props.max_height)

/-- The `slope_mask` of line 343 at one cell, with slope comparisons in
squared form (see `slopeSqNorm`). -/
def slopeMaskAt (hm : List (List ℚ)) (props : AssetProps) (y x : ℕ) : Bool :=
  decide (props.min_slope ^ 2 ≤ getQ (slopeSqNorm hm) y x)
    && decide (getQ (slopeSqNorm hm) y x ≤ props.max_slope ^ 2)

/-- The placement-kind-specific `placement_mask` (lines 345-376) at one
cell. -/
def placementMaskAt (hm : List (List ℚ)) (p : Placement) (y x : ℕ) : Bool :=
  let h := hm.length
  let w := (hm.headD []).length
  match p with
  | .land => true
  | .sky => true
  | .water => decide (getQ hm y x ≤ 3/10)
  | .water_body =>
    decide (getQ hm y x ≤ 3/10) && decide (getQ (slopeSqNorm hm) y x ≤ (1/10) ^ 2)
  | .water_flow =>
    decide (getQ hm y x ≤ 1/2) && decide ((1/20) ^ 2 ≤ getQ (slopeSqNorm hm) y x)
      && decide (getQ (slopeSqNorm hm) y x ≤ (1/2) ^ 2)
  | .water_crossing => dilate (waterAt hm) h w y x && dilate (landAt hm) h w y x
  | .land_depression =>
    let n := max 5 (min h w / 20)
    decide (getQ hm y x - minFilterAt hm n y x < 1/10)

/-- The `combined_mask` of line 379 at one cell. -/
def combinedMaskAt (hm : List (List ℚ)) (props : AssetProps) (y x : ℕ) : Bool :=
  heightMaskAt hm props y x && slopeMaskAt hm props y x
    && placementMaskAt hm props.placement y x

/-- Embeds `np.where(combined_mask)` followed by pairing as `(x, y)`
(lines 382, 397): the eligible cells in row-major scan order. -/
def eligibleSites (hm : List (List ℚ)) (props : AssetProps) : List (ℕ × ℕ) :=
  (List.range hm.length).flatMap fun y =>
    (List.range (hm.headD []).length).flatMap fun x =>
      if combinedMaskAt hm props y x then [(x, y)] else []

/-! ## `asset_generator.py` — placement and synthesis (lines 309-517) -/

/-- Python `int()` applied to a rational: truncation toward zero. -/
def pyTrunc (q : ℚ) : ℤ :=
  if q < 0 then -⌊-q⌋ else ⌊q⌋

/-- Embeds `AssetGenerator.find_placement_locations` (lines 309-397).
`int(np.sqrt(total) * 0.1)` is `Nat.sqrt total / 10` in exact arithmetic
(`⌊√N·(1/10)⌋ = ⌊√N⌋/10`, proved in `base_count_eq_floor_sqrt` below). -/
def find_placement_locations (st : RandState) (hm : List (List ℚ))
    (asset_type : String) (density : ℚ) (seed : Option ℤ) : List (ℕ × ℕ) :=
  let st2 := match seed with | some s => npSeed s | none => st
  let props := lookupAsset asset_type
  let el := eligibleSites hm props
  let total := el.length
  if total = 0 then []
  else
    let base_count := Nat.sqrt total / 10
    let count : ℤ := max 1 (pyTrunc ((base_count : ℚ) * density))
    let count := min count (total : ℤ)
    (npChoice st2 total count.toNat).map fun i => el.getD i (0, 0)

/-- The dict returned by `generate_asset_properties`. -/
structure AssetProperties where
  type : String
  height : ℚ
  width : ℚ
  color : List ℚ
  rotation : ℚ
deriving DecidableEq

/-- Embeds `AssetGenerator.generate_asset_properties` (lines 399-438): reseed if
a seed is given, then draw height, width, three color channels and a
rotation from the per-type ranges. -/
def generate_asset_properties (st : RandState) (asset_type : String)
    (seed : Option ℤ) : AssetProperties :=
  let st2 := match seed with | some s => npSeed s | none => st
  let props := lookupAsset asset_type
  { type := asset_type
    height := uniformDraw st2 0 props.height_range.1 props.height_range.2
    width := uniformDraw st2 1 props.width_range.1 props.width_range.2
    color := [uniformDraw st2 2 props.color_range.1.1 props.color_range.2.1,
              uniformDraw st2 3 props.color_range.1.2.1 props.color_range.2.2.1,
              uniformDraw st2 4 props.color_range.1.2.2 props.color_range.2.2.2]
    rotation := uniformDraw st2 5 0 360 }

/-- The `world_params` dict of `place_assets`, with the defaults the code
substitutes for missing keys (lines 454-477). -/
structure WorldParams where
  seed : Option ℤ := none
  entities : List String := []
  entity_density : ℚ := 1/2
  center_x : ℚ := -(1/2)
  center_y : ℚ := 0

/-- One asset instance of the output manifest: the properties dict of
`generate_asset_properties` with the `position` added (lines 501-508). -/
structure PlacedAsset where
  props : AssetProperties
  pos_x : ℕ
  pos_y : ℕ
  pos_z : ℚ
deriving DecidableEq

/-- The dict returned by `place_assets` (lines 513-517). -/
structure AssetManifest where
  seed : ℤ
  count : ℕ
  assets : List PlacedAsset
deriving DecidableEq

/-- The default biome entity lists (lines 463-477). -/
def defaultEntities (cx cy : ℚ) : List String :=
  if cx < -(7/10) then ["tree", "rock", "grass"]
  else if 1/2 < cy then ["water", "sand", "grass"]
  else if 0 < cx ∧ cy < 0 then ["cactus", "rock", "sand"]
  else ["tree", "grass", "flower", "rock"]

/-- Lines 460-477: the entity list actually placed. -/
def resolveEntities (wp : WorldParams) : List String :=
  if wp.entities = [] then defaultEntities wp.center_x wp.center_y else wp.entities

/-- The `for i, entity_type in enumerate(entities)` loop of lines
483-511: category `i` uses sub-seed `master + i`, its `j`-th site uses
instance seed `master + i + j`, and instances are appended in category
order then site order. -/
def placeLoop (st : RandState) (hm : List (List ℚ)) (density : ℚ)
    (master : ℤ) : List String → ℕ → List PlacedAsset
  | [], _ => []
  | e :: rest, i =>
    let locs := find_placement_locations st hm e density (some (master + i))
    let placed := locs.enum.map fun ji =>
      { props := generate_asset_properties st e (some (master + i + ji.1))
        pos_x := ji.2.1
        pos_y := ji.2.2
        pos_z := getQ hm ji.2.2 ji.2.1 * 50 }
    placed ++ placeLoop st hm density master rest (i + 1)

/-- Embeds `AssetGenerator.place_assets` (lines 440-517). -/
def place_assets (st : RandState) (hm : List (List ℚ)) (wp : WorldParams)
    (seed : Option ℤ) : AssetManifest :=
  let master : ℤ :=
    match seed with
    | some s => s
    | none => match wp.seed with | some s => s | none => npRandInt st
  let assets := placeLoop st hm wp.entity_density master (resolveEntities wp) 0
  { seed := master, count := assets.length, assets := assets }

/-! ## Helper lemmas: escape-time bounds -/

lemma escapeAuxZ_nonneg (c : ℚ × ℚ) (M : ℤ) (hM : 0 ≤ M) :
    ∀ (fuel : ℕ) (z : ℚ × ℚ) (i : ℕ), 0 ≤ escapeAuxZ c M fuel z i := by
  intro fuel
  induction fuel with
  | zero => intro z i; simpa [escapeAuxZ] using hM
  | succ n ih =>
    intro z i
    simp only [escapeAuxZ]
    split
    · exact Int.natCast_nonneg i
    · exact ih _ _

lemma escapeAuxZ_le (c : ℚ × ℚ) (M : ℤ) :
    ∀ (fuel : ℕ) (z : ℚ × ℚ) (i : ℕ),
      escapeAuxZ c M fuel z i ≤ max M ((i + fuel : ℕ) : ℤ) := by
  intro fuel
  induction fuel with
  | zero => intro z i; exact le_max_left _ _
  | succ n ih =>
    intro z i
    simp only [escapeAuxZ]
    split
    · exact le_trans (by exact_mod_cast Nat.le_add_right i (n + 1)) (le_max_right _ _)
    · exact le_trans (ih _ (i + 1)) (by rw [max_le_iff]; omega)

lemma escapeIndex_nonneg (c : ℚ × ℚ) (M : ℤ) (hM : 0 ≤ M) : 0 ≤ escapeIndex c M :=
  escapeAuxZ_nonneg c M hM _ _ _

lemma escapeIndex_le (c : ℚ × ℚ) (M : ℤ) (hM : 0 ≤ M) : escapeIndex c M ≤ M := by
  have h := escapeAuxZ_le c M M.toNat (0, 0) 0
  rw [escapeIndex]
  have ht : ((0 + M.toNat : ℕ) : ℤ) = M := by
    simp [Int.toNat_of_nonneg hM]
  rw [ht, max_self] at h
  exact h

/-! ## Helper lemmas: the early exit is unobservable (for claim C6) -/

lemma fullLoopAux_frozen (c : ℚ × ℚ) :
    ∀ (fuel i : ℕ) (z : ℚ × ℚ) (out : ℤ),
      fullLoopAux c fuel i (z, false, out) = (z, false, out) := by
  intro fuel
  induction fuel with
  | zero => intro i z out; rfl
  | succ n ih => intro i z out; simp [fullLoopAux, fullStep, ih]

lemma fullLoopAux_active (c : ℚ × ℚ) (M : ℤ) :
    ∀ (fuel i : ℕ) (z : ℚ × ℚ) (out : ℤ),
      (if (fullLoopAux c fuel i (z, true, out)).2.1 then M
       else (fullLoopAux c fuel i (z, true, out)).2.2) = escapeAuxZ c M fuel z i := by
  intro fuel
  induction fuel with
  | zero => intro i z out; simp [fullLoopAux, escapeAuxZ]
  | succ n ih =>
    intro i z out
    simp only [fullLoopAux, fullStep, escapeAuxZ]
    by_cases h : 4 < absSq (cstep z c)
    · simp [h, fullLoopAux_frozen]
    · simpa [h] using ih (i + 1) (cstep z c) out

lemma fullCell_eq_escapeIndex (c : ℚ × ℚ) (M : ℤ) : fullCell c M = escapeIndex c M := by
  simpa [fullCell, escapeIndex] using fullLoopAux_active c M M.toNat 0 (0, 0) 0

/-! ## Helper lemmas: indexing concatenations of constant-length blocks -/

lemma flatMap_const_length {α : Type _} (g : ℕ → List α) (k : ℕ)
    (hk : ∀ x, (g x).length = k) :
    ∀ m, ((List.range m).flatMap g).length = m * k := by
  intro m
  induction m with
  | zero => simp
  | succ n ih =>
    rw [List.range_succ, List.flatMap_append, List.length_append, ih]
    simp [hk, Nat.succ_mul]

lemma flatMap_const_getElem {α : Type _} (g : ℕ → List α) (k : ℕ)
    (hk : ∀ x, (g x).length = k) :
    ∀ (m x j : ℕ), x < m → j < k →
      ((List.range m).flatMap g)[x * k + j]? = (g x)[j]? := by
  intro m
  induction m with
  | zero => intro x j hx _; omega
  | succ n ih =>
    intro x j hx hj
    rw [List.range_succ, List.flatMap_append]
    rcases Nat.lt_or_ge x n with h | h
    · rw [List.getElem?_append_left]
      · exact ih x j h hj
      · rw [flatMap_const_length g k hk]
        calc x * k + j < x * k + k := by omega
        _ ≤ n * k := by
          have : x + 1 ≤ n := h
          calc x * k + k = (x + 1) * k := (Nat.succ_mul x k).symm
          _ ≤ n * k := Nat.mul_le_mul_right k this
    · have hx2 : x = n := by omega
      subst hx2
      rw [List.getElem?_append_right]
      · rw [flatMap_const_length g k hk]
        simp [Nat.add_sub_cancel_left]
      · rw [flatMap_const_length g k hk]
        exact Nat.le_add_right _ _

/-! ## Helper lemmas: `max`-folds (the `np.max` model) -/

lemma init_le_foldl_max {α : Type _} [LinearOrder α] :
    ∀ (l : List α) (a : α), a ≤ l.foldl max a := by
  intro l
  induction l with
  | nil => intro a; exact le_rfl
  | cons b t ih => intro a; exact le_trans (le_max_left a b) (ih (max a b))

lemma le_foldl_max {α : Type _} [LinearOrder α] :
    ∀ (l : List α) (a x : α), x ∈ l → x ≤ l.foldl max a := by
  intro l
  induction l with
  | nil => intro a x hx; cases hx
  | cons b t ih =>
    intro a x hx
    rcases List.mem_cons.mp hx with h | h
    · subst h; exact le_trans (le_max_right a x) (init_le_foldl_max t _)
    · exact ih _ x h

lemma foldl_max_le {α : Type _} [LinearOrder α] :
    ∀ (l : List α) (a b : α), a ≤ b → (∀ x ∈ l, x ≤ b) → l.foldl max a ≤ b := by
  intro l
  induction l with
  | nil => intro a b hab _; exact hab
  | cons c t ih =>
    intro a b hab hl
    exact ih _ b (max_le hab (hl c (List.mem_cons_self c t))) fun x hx =>
      hl x (List.mem_cons_of_mem c hx)

lemma foldl_max_map_commute {α β : Type _} [LinearOrder α] [LinearOrder β]
    (f : α → β) (hf : ∀ a b, f (max a b) = max (f a) (f b)) :
    ∀ (l : List α) (a : α), (l.map f).foldl max (f a) = f (l.foldl max a) := by
  intro l
  induction l with
  | nil => intro a; rfl
  | cons b t ih => intro a; simp only [List.map_cons, List.foldl_cons, ← hf, ih]

/-! ## Helper lemmas: membership and indexed access -/

lemma forall_mem_zipWith {α β γ : Type _} {f : α → β → γ} {P : γ → Prop}
    (h : ∀ a b, P (f a b)) :
    ∀ (l₁ : List α) (l₂ : List β), ∀ x ∈ List.zipWith f l₁ l₂, P x := by
  intro l₁
  induction l₁ with
  | nil => intro l₂ x hx; cases hx
  | cons a t ih =>
    intro l₂ x hx
    cases l₂ with
    | nil => cases hx
    | cons b t₂ =>
      rcases List.mem_cons.mp hx with h2 | h2
      · subst h2; exact h a b
      · exact ih t₂ x h2

lemma getD_of_getElem? {α : Type _} {l : List α} {i : ℕ} {x : α} (d : α)
    (h : l[i]? = some x) : l.getD i d = x := by
  simp [List.getD_eq_getElem?_getD, h]

lemma getD_map_of_lt {α β : Type _} (f : α → β) (l : List α) (i : ℕ)
    (d : α) (d2 : β) (h : i < l.length) : (l.map f).getD i d2 = f (l.getD i d) := by
  simp [List.getD_eq_getElem?_getD, List.getElem?_map, List.getElem?_eq_getElem, h]

lemma getD_range_map {α : Type _} (f : ℕ → α) (n i : ℕ) (d : α) (h : i < n) :
    (((List.range n).map f).getD i d) = f i := by
  rw [getD_map_of_lt f _ i 0 d (by simpa using h)]
  simp [List.getD_eq_getElem?_getD, List.getElem?_range h]

lemma getD_zipWith_of_lt {α β γ : Type _} (f : α → β → γ) (l₁ : List α)
    (l₂ : List β) (i : ℕ) (d₁ : α) (d₂ : β) (d₃ : γ)
    (h₁ : i < l₁.length) (h₂ : i < l₂.length) :
    (List.zipWith f l₁ l₂).getD i d₃ = f (l₁.getD i d₁) (l₂.getD i d₂) := by
  have hlen : i < (List.zipWith f l₁ l₂).length := by
    simp [List.length_zipWith]; omega
  simp [List.getD_eq_getElem?_getD, List.getElem?_eq_getElem, h₁, h₂, hlen,
    List.getElem_zipWith]

lemma getD_cases {α : Type _} (l : List α) (i : ℕ) (d : α) :
    (i < l.length ∧ l.getD i d ∈ l) ∨ (l.length ≤ i ∧ l.getD i d = d) := by
  by_cases h : i < l.length
  · left
    refine ⟨h, ?_⟩
    rw [List.getD_eq_getElem?_getD, List.getElem?_eq_getElem h]
    exact List.getElem_mem h
  · right
    refine ⟨by omega, ?_⟩
    rw [List.getD_eq_getElem?_getD, List.getElem?_eq_none (by omega)]
    rfl

/-! ## Helper lemmas: slope field and its square root bridge -/

lemma slopeSq_nonneg (hm : List (List ℚ)) :
    ∀ row ∈ slopeSq hm, ∀ v ∈ row, 0 ≤ v := by
  have inner : ∀ (r₁ r₂ : List ℚ), ∀ v ∈ List.zipWith (fun a b : ℚ => a ^ 2 + b ^ 2) r₁ r₂, 0 ≤ v :=
    forall_mem_zipWith fun a b => by positivity
  exact forall_mem_zipWith inner (gradX hm) (gradY hm)

lemma calculate_slope_nonneg (hm : List (List ℚ)) :
    ∀ row ∈ calculate_slope hm, ∀ v ∈ row, 0 ≤ v := by
  intro row hrow v hv
  rcases List.mem_map.mp hrow with ⟨r, _, hr⟩
  subst hr
  rcases List.mem_map.mp hv with ⟨q, _, hq⟩
  subst hq
  exact Real.sqrt_nonneg _

/-- Lemma: `Real.sqrt` of a rational cast commutes with `max`. -/
lemma sqrtQ_max (a b : ℚ) :
    Real.sqrt ((max a b : ℚ) : ℝ) = max (Real.sqrt (a : ℝ)) (Real.sqrt (b : ℝ)) := by
  rcases le_total a b with h | h
  · rw [max_eq_right h, max_eq_right (Real.sqrt_le_sqrt (by exact_mod_cast h))]
  · rw [max_eq_left h, max_eq_left (Real.sqrt_le_sqrt (by exact_mod_cast h))]

/-- The real slope maximum is the square root of the rational squared
maximum. -/
lemma npMaxR_calculate_slope (hm : List (List ℚ)) :
    npMaxR (calculate_slope hm).flatten =
      Real.sqrt ((npMaxQ (slopeSq hm).flatten : ℚ) : ℝ) := by
  rw [calculate_slope, npMaxR, npMaxQ, ← List.map_flatten]
  have h0 : (0 : ℝ) = Real.sqrt ((0 : ℚ) : ℝ) := by simp
  rw [h0]
  exact foldl_max_map_commute (fun q : ℚ => Real.sqrt (q : ℝ)) sqrtQ_max _ 0

/-- The directly transcribed real normalized slope field is the
elementwise square root of the rational squared field used by the
decidable masks: the two presentations of lines 333-339 agree. -/
lemma normalized_slope_eq_sqrt (hm : List (List ℚ)) :
    normalized_slope hm = (slopeSqNorm hm).map (List.map fun q : ℚ => Real.sqrt (q : ℝ)) := by
  rw [normalized_slope, slopeSqNorm, npMaxR_calculate_slope]
  set M := npMaxQ (slopeSq hm).flatten with hM
  by_cases hpos : 0 < M
  · rw [if_pos (by rw [Real.sqrt_pos]; exact_mod_cast hpos), if_pos hpos]
    rw [calculate_slope, List.map_map, List.map_map]
    refine List.map_congr_left fun row hrow => ?_
    simp only [Function.comp_apply, List.map_map]
    refine List.map_congr_left fun v hv => ?_
    simp only [Function.comp_apply]
    rw [Rat.cast_div, Real.sqrt_div (by exact_mod_cast slopeSq_nonneg hm row hrow v hv)]
  · rw [if_neg (by rw [Real.sqrt_pos]; exact_mod_cast hpos), if_neg hpos, calculate_slope]

/-- On a constant grid every row-axis gradient vanishes. -/
lemma gradX_flat (hm : List (List ℚ)) (cst : ℚ)
    (hflat : ∀ row ∈ hm, ∀ v ∈ row, v = cst) :
    ∀ row ∈ gradX hm, ∀ v ∈ row, v = 0 := by
  intro row hrow v hv
  rcases List.mem_map.mp hrow with ⟨r, hr, hrw⟩
  subst hrw
  rcases List.mem_map.mp hv with ⟨i, hi, hvi⟩
  subst hvi
  have hiB : i < r.length := List.mem_range.mp hi
  have hget : ∀ j, j < r.length → r.getD j 0 = cst := by
    intro j hj
    rcases getD_cases r j 0 with ⟨_, hmem⟩ | ⟨hlen, _⟩
    · exact hflat r hr _ hmem
    · omega
  rw [grad1]
  split
  · rfl
  · rename_i h1
    split
    · rw [hget 1 (by omega), hget 0 (by omega)]; ring
    · split
      · rw [hget (r.length - 1) (by omega), hget (r.length - 2) (by omega)]; ring
      · rename_i h2 h3
        rw [hget (i + 1) (by omega), hget (i - 1) (by omega)]; ring

/-- On a constant rectangular grid every column-axis gradient vanishes. -/
lemma gradY_flat (hm : List (List ℚ)) (cst : ℚ) (W : ℕ)
    (hW : ∀ row ∈ hm, row.length = W)
    (hflat : ∀ row ∈ hm, ∀ v ∈ row, v = cst) :
    ∀ row ∈ gradY hm, ∀ v ∈ row, v = 0 := by
  intro row hrow v hv
  rcases List.mem_map.mp hrow with ⟨y, hy, hyw⟩
  subst hyw
  rcases List.mem_map.mp hv with ⟨x, hx, hvx⟩
  subst hvx
  have hyB : y < hm.length := List.mem_range.mp hy
  have hxB : x < (hm.headD []).length := List.mem_range.mp hx
  have hxW : x < W := by
    have hhead : hm.headD [] ∈ hm := by
      cases hm with
      | nil => exact absurd hyB (by simp)
      | cons a t => exact List.mem_cons_self a t
    rw [hW _ hhead] at hxB
    exact hxB
  have hget : ∀ j, j < hm.length → getQ hm j x = cst := by
    intro j hj
    rw [getQ]
    rcases getD_cases hm j [] with ⟨_, hmem⟩ | ⟨hlen, _⟩
    · rcases getD_cases (hm.getD j []) x 0 with ⟨_, hmem2⟩ | ⟨hlen2, _⟩
      · exact hflat _ hmem _ hmem2
      · rw [hW _ hmem] at hlen2; omega
    · omega
  rw [grad1]
  split
  · rfl
  · split
    · rw [hget 1 (by omega), hget 0 (by omega)]; ring
    · split
      · rw [hget (hm.length - 1) (by omega), hget (hm.length - 2) (by omega)]; ring
      · rename_i h2 h3
        rw [hget (y + 1) (by omega), hget (y - 1) (by omega)]; ring

lemma mem_zipWith_decomp {α β γ : Type _} {f : α → β → γ} :
    ∀ {l₁ : List α} {l₂ : List β} {x : γ}, x ∈ List.zipWith f l₁ l₂ →
      ∃ a ∈ l₁, ∃ b ∈ l₂, x = f a b := by
  intro l₁
  induction l₁ with
  | nil => intro l₂ x hx; cases hx
  | cons a t ih =>
    intro l₂ x hx
    cases l₂ with
    | nil => cases hx
    | cons b t₂ =>
      rcases List.mem_cons.mp hx with h | h
      · exact ⟨a, List.mem_cons_self a t, b, List.mem_cons_self b t₂, h⟩
      · rcases ih h with ⟨a2, ha, b2, hb, hx2⟩
        exact ⟨a2, List.mem_cons_of_mem a ha, b2, List.mem_cons_of_mem b hb, hx2⟩

/-- On a constant rectangular grid the squared slope is identically 0. -/
lemma slopeSq_flat (hm : List (List ℚ)) (cst : ℚ) (W : ℕ)
    (hW : ∀ row ∈ hm, row.length = W)
    (hflat : ∀ row ∈ hm, ∀ v ∈ row, v = cst) :
    ∀ row ∈ slopeSq hm, ∀ v ∈ row, v = 0 := by
  intro row hrow v hv
  rcases mem_zipWith_decomp hrow with ⟨rx, hrx, ry, hry, hrw⟩
  subst hrw
  rcases mem_zipWith_decomp hv with ⟨a, ha, b, hb, hvv⟩
  subst hvv
  rw [gradX_flat hm cst hflat rx hrx a ha, gradY_flat hm cst W hW hflat ry hry b hb]
  ring

/-- On a constant rectangular grid the real slope field is identically 0
and so is its maximum. -/
lemma calculate_slope_flat (hm : List (List ℚ)) (cst : ℚ) (W : ℕ)
    (hW : ∀ row ∈ hm, row.length = W)
    (hflat : ∀ row ∈ hm, ∀ v ∈ row, v = cst) :
    ∀ row ∈ calculate_slope hm, ∀ v ∈ row, v = 0 := by
  intro row hrow v hv
  rcases List.mem_map.mp hrow with ⟨r, hr, hrw⟩
  subst hrw
  rcases List.mem_map.mp hv with ⟨q, hq, hqv⟩
  subst hqv
  rw [slopeSq_flat hm cst W hW hflat r hr q hq]
  simp

/-- Values of any grid bound its `npMaxR`-maximum and the maximum of an
all-zero grid is zero. -/
lemma npMaxR_eq_zero_of_all_zero {g : List (List ℝ)}
    (h : ∀ row ∈ g, ∀ v ∈ row, v = 0) : npMaxR g.flatten = 0 := by
  refine le_antisymm ?_ (init_le_foldl_max _ _)
  refine foldl_max_le _ _ _ le_rfl fun x hx => ?_
  rcases List.mem_flatten.mp hx with ⟨row, hrow, hxr⟩
  exact le_of_eq (h row hrow x hxr)

/-! ## Helper lemmas: placement engine -/

/-- When a concrete seed is supplied, `find_placement_locations` does not
read the ambient generator state: the seeding of lines 322-324 makes the
result a function of the explicit arguments alone. -/
lemma find_placement_locations_state_irrel (st₁ st₂ : RandState)
    (hm : List (List ℚ)) (t : String) (d : ℚ) (s : ℤ) :
    find_placement_locations st₁ hm t d (some s) =
      find_placement_locations st₂ hm t d (some s) := rfl

/-- Same for `generate_asset_properties` (lines 410-412). -/
lemma generate_asset_properties_state_irrel (st₁ st₂ : RandState)
    (t : String) (s : ℤ) :
    generate_asset_properties st₁ t (some s) =
      generate_asset_properties st₂ t (some s) := rfl

/-- If the combined mask is false on every in-bounds cell, no sites are
eligible. -/
lemma eligibleSites_eq_nil (hm : List (List ℚ)) (props : AssetProps)
    (h : ∀ y x, y < hm.length → x < (hm.headD []).length →
      combinedMaskAt hm props y x = false) :
    eligibleSites hm props = [] := by
  rw [eligibleSites, List.flatMap_eq_nil_iff]
  intro y hy
  rw [List.flatMap_eq_nil_iff]
  intro x hx
  rw [h y x (List.mem_range.mp hy) (List.mem_range.mp hx)]
  simp

/-- With no eligible cell, `find_placement_locations` returns the empty
list (no error). -/
lemma find_placement_locations_empty (st : RandState) (hm : List (List ℚ))
    (t : String) (d : ℚ) (seed : Option ℤ)
    (h0 : (eligibleSites hm (lookupAsset t)).length = 0) :
    find_placement_locations st hm t d seed = [] := by
  rw [find_placement_locations.eq_def, if_pos h0]

/-- With `N > 0` eligible cells, the number of returned sites is the
density-scaled count `max(1, int(base·density))` clamped to `N`. -/
lemma find_placement_locations_length_pos (st : RandState) (hm : List (List ℚ))
    (t : String) (d : ℚ) (seed : Option ℤ)
    (h0 : (eligibleSites hm (lookupAsset t)).length ≠ 0) :
    (find_placement_locations st hm t d seed).length =
      (min (max 1 (pyTrunc
          ((Nat.sqrt (eligibleSites hm (lookupAsset t)).length / 10 : ℕ) * d)))
        ((eligibleSites hm (lookupAsset t)).length : ℤ)).toNat := by
  rw [find_placement_locations.eq_def, if_neg h0]
  simp only [List.length_map, npChoice, List.length_take, List.length_rotate,
    List.length_range]
  have hle : (min (max 1 (pyTrunc
      ((Nat.sqrt (eligibleSites hm (lookupAsset t)).length / 10 : ℕ) * d)))
      ((eligibleSites hm (lookupAsset t)).length : ℤ)) ≤
      ((eligibleSites hm (lookupAsset t)).length : ℤ) := min_le_right _ _
  omega

/-- Truncation toward zero and flooring agree after clamping to at least
one: `max(1, int(x)) = max(1, ⌊x⌋)`. -/
lemma max_one_pyTrunc_eq_floor (q : ℚ) : max 1 (pyTrunc q) = max 1 ⌊q⌋ := by
  rw [pyTrunc]
  split
  · rename_i h
    have h1 : 0 ≤ ⌊-q⌋ := Int.floor_nonneg.mpr (by linarith)
    have h2 : (⌊q⌋ : ℚ) ≤ q := Int.floor_le q
    have h3 : ⌊q⌋ ≤ 0 := by
      by_contra hc
      push_neg at hc
      have : (1 : ℚ) ≤ (⌊q⌋ : ℚ) := by exact_mod_cast hc
      linarith
    rw [max_eq_left (by omega : -⌊-q⌋ ≤ 1), max_eq_left (by omega : ⌊q⌋ ≤ 1)]
  · rfl

/-- Lemma: `int(np.sqrt(N) * 0.1)` in exact real arithmetic is `Nat.sqrt N / 10`:
the computable base count of the embedding equals the specified
`⌊√N × 0.1⌋`. -/
lemma base_count_eq_floor_sqrt (n : ℕ) :
    ((Nat.sqrt n / 10 : ℕ) : ℤ) = ⌊Real.sqrt (n : ℝ) * (1/10)⌋ := by
  rw [mul_one_div]
  rw [← Int.natCast_floor_eq_floor (by positivity)]
  have h10 : (10 : ℝ) = ((10 : ℕ) : ℝ) := by norm_num
  rw [h10, Nat.floor_div_nat, Real.nat_floor_real_sqrt_eq_nat_sqrt]

/-- The placement loop written as a `flatMap` over the enumerated entity
list: category `i` uses sub-seed `master + i` and its `j`-th site uses
instance seed `master + i + j`. -/
lemma placeLoop_eq_enumFrom (st : RandState) (hm : List (List ℚ)) (d : ℚ)
    (master : ℤ) :
    ∀ (es : List String) (i : ℕ),
      placeLoop st hm d master es i =
        (es.enumFrom i).flatMap fun ie =>
          (find_placement_locations st hm ie.2 d (some (master + ie.1))).enum.map
            fun ji =>
              { props := generate_asset_properties st ie.2 (some (master + ie.1 + ji.1))
                pos_x := ji.2.1
                pos_y := ji.2.2
                pos_z := getQ hm ji.2.2 ji.2.1 * 50 } := by
  intro es
  induction es with
  | nil => intro i; rfl
  | cons e rest ih =>
    intro i
    simp only [placeLoop, List.enumFrom_cons, List.flatMap_cons, ih]

/-- With an explicit per-category seed the placement loop does not read
the ambient generator state. -/
lemma placeLoop_state_irrel (st₁ st₂ : RandState) (hm : List (List ℚ)) (d : ℚ)
    (master : ℤ) :
    ∀ (es : List String) (i : ℕ),
      placeLoop st₁ hm d master es i = placeLoop st₂ hm d master es i := by
  intro es
  induction es with
  | nil => intro i; rfl
  | cons e rest ih =>
    intro i
    simp only [placeLoop, ih,
      find_placement_locations_state_irrel st₁ st₂,
      generate_asset_properties_state_irrel st₁ st₂]

/-- Dilation of a mask that is false on every in-bounds cell is false on
every in-bounds cell. -/
lemma dilate_false (p : ℕ → ℕ → Bool) (h w y x : ℕ)
    (hp : ∀ y2 x2, y2 < h → x2 < w → p y2 x2 = false)
    (hy : y < h) (hx : x < w) : dilate p h w y x = false := by
  have h1 : (decide (y + 1 < h) && p (y + 1) x) = false := by
    by_cases hb : y + 1 < h
    · simp [hb, hp _ _ hb hx]
    · simp [hb]
  have h2 : (decide (0 < y) && p (y - 1) x) = false := by
    by_cases hb : 0 < y
    · simp [hb, hp (y - 1) x (by omega) hx]
    · simp [hb]
  have h3 : (decide (x + 1 < w) && p y (x + 1)) = false := by
    by_cases hb : x + 1 < w
    · simp [hb, hp _ _ hy hb]
    · simp [hb]
  have h4 : (decide (0 < x) && p y (x - 1)) = false := by
    by_cases hb : 0 < x
    · simp [hb, hp y (x - 1) hy (by omega)]
    · simp [hb]
  rw [dilate, hp y x hy hx, h1, h2, h3, h4]
  rfl

/-- The water-crossing mask is identically false on a map with no water
cell or with no land cell. -/
lemma placementMask_crossing_false (hm : List (List ℚ))
    (hOr : (∀ y x, y < hm.length → x < (hm.headD []).length →
              ¬ getQ hm y x ≤ 3/10) ∨
           (∀ y x, y < hm.length → x < (hm.headD []).length →
              ¬ 3/10 < getQ hm y x)) :
    ∀ y x, y < hm.length → x < (hm.headD []).length →
      placementMaskAt hm Placement.water_crossing y x = false := by
  intro y x hy hx
  show (dilate (waterAt hm) hm.length (hm.headD []).length y x &&
    dilate (landAt hm) hm.length (hm.headD []).length y x) = false
  rcases hOr with hA | hB
  · have hw : dilate (waterAt hm) hm.length (hm.headD []).length y x = false :=
      dilate_false _ _ _ _ _
        (fun y2 x2 hy2 hx2 => by simp [waterAt, hA y2 x2 hy2 hx2]) hy hx
    rw [hw, Bool.false_and]
  · have hl : dilate (landAt hm) hm.length (hm.headD []).length y x = false :=
      dilate_false _ _ _ _ _
        (fun y2 x2 hy2 hx2 => by simp [landAt, hB y2 x2 hy2 hx2]) hy hx
    rw [hl, Bool.and_false]

/-! ## Claim theorems -/

/-- C6: the early-exit optimization of the escape-time loop is
unobservable: for every bounds and `max_iterations`, the iteration grid
computed with the early break equals, cell for cell, the grid produced by
running the masked loop body for the full `max_iterations` passes. -/
theorem C6_early_exit_unobservable (width height : ℕ) (maxIter : ℤ)
    (xMin xMax yMin yMax : ℚ) :
    calculate_mandelbrot_full width height maxIter xMin xMax yMin yMax =
      calculate_mandelbrot width height maxIter xMin xMax yMin yMax := by
  simp [calculate_mandelbrot_full, calculate_mandelbrot, fullCell_eq_escapeIndex]

/-- C3: `find_placement_locations` is deterministic whenever a (non-None)
seed is supplied: the generator is reseeded with exactly that seed, so
the ordered site list is a function of the explicit arguments alone and
two calls with identical arguments return identical lists, whatever the
ambient generator state was. -/
theorem C3_find_placement_deterministic (st₁ st₂ : RandState)
    (hm : List (List ℚ)) (asset_type : String) (density : ℚ) (s : ℤ) :
    find_placement_locations st₁ hm asset_type density (some s) =
      find_placement_locations st₂ hm asset_type density (some s) :=
  find_placement_locations_state_irrel st₁ st₂ hm asset_type density s

/-- C4: `place_assets` with master seed `m` gives the `i`-th (0-indexed)
category the sub-seed `m + i`, gives the `j`-th site of that category the
instance seed `m + i + j`, appends instances in category order then site
order, and is independent of the ambient generator state, so two calls
with identical inputs produce identical manifests. -/
theorem C4_place_assets_seeding (st₁ st₂ : RandState) (hm : List (List ℚ))
    (wp : WorldParams) (m : ℤ) :
    (place_assets st₁ hm wp (some m)).assets =
      ((resolveEntities wp).enum.flatMap fun ie =>
        (find_placement_locations st₁ hm ie.2 wp.entity_density
            (some (m + ie.1))).enum.map fun ji =>
          { props := generate_asset_properties st₁ ie.2 (some (m + ie.1 + ji.1))
            pos_x := ji.2.1
            pos_y := ji.2.2
            pos_z := getQ hm ji.2.2 ji.2.1 * 50 }) ∧
    (place_assets st₁ hm wp (some m)).seed = m ∧
    (place_assets st₁ hm wp (some m)).count =
      (place_assets st₁ hm wp (some m)).assets.length ∧
    place_assets st₁ hm wp (some m) = place_assets st₂ hm wp (some m) := by
  refine ⟨?_, rfl, rfl, ?_⟩
  · show placeLoop st₁ hm wp.entity_density m (resolveEntities wp) 0 = _
    rw [placeLoop_eq_enumFrom]
    rfl
  · show AssetManifest.mk m _ _ = AssetManifest.mk m _ _
    rw [placeLoop_state_irrel st₁ st₂]

/-- C2 counterexample: with `max_iterations = -1 ≤ 0` (and otherwise
default parameters on a 2×2 grid) generation does not fail: no check
aborts it, the computation runs and `generate_height_map` returns the
all-ones height map `(-1)/(-1) = 1`, refuting the claim that every
non-positive parameter set fails with an `InvalidParameter` error before
any computation. -/
theorem C2_counterexample :
    (MandelbrotGenerator.mk 2 2 (-1) (-(1/2)) 0 1).max_iterations ≤ 0 ∧
    (generate_height_map (MandelbrotGenerator.mk 2 2 (-1) (-(1/2)) 0 1) none).2 =
      [[1, 1], [1, 1]] :=
  ⟨by decide, by decide⟩

/-- Length of `linspace`. -/
lemma linspace_length (a b : ℚ) (n : ℕ) : (linspace a b n).length = n := by
  rw [linspace]
  split
  · rename_i h; simp [h]
  · split
    · rename_i h; simp [h]
    · rw [List.length_map, List.length_range]

/-- C2 amended: the code performs no parameter validation at all.  With
`max_iterations < 0` the iteration loop body runs zero times, every cell
receives `max_iterations`, and `generate_height_map` returns a full
`height × width` grid of ones — a height map is produced and no error is
raised (there is no `InvalidParameter` in the code). -/
theorem C2_amended_no_validation (g : MandelbrotGenerator)
    (h : g.max_iterations < 0) :
    (generate_height_map g none).2 =
      List.replicate g.height (List.replicate g.width 1) := by
  have hM0 : (g.max_iterations : ℚ) ≠ 0 := by
    intro hc
    rw [Rat.intCast_eq_zero] at hc
    omega
  have htoNat : g.max_iterations.toNat = 0 := by omega
  simp only [generate_height_map, applyCustomParams, calculate_mandelbrot,
    escapeIndex, htoNat, List.map_map]
  rw [List.eq_replicate_iff]
  constructor
  · simp [linspace_length]
  · intro row hrow
    rcases List.mem_map.mp hrow with ⟨y, _, hy⟩
    subst hy
    rw [List.eq_replicate_iff]
    constructor
    · simp [linspace_length]
    · intro v hv
      rcases List.mem_map.mp hv with ⟨nv, hnv, hx⟩
      subst hx
      rcases List.mem_map.mp hnv with ⟨x2, _, hx2⟩
      subst hx2
      exact div_self hM0

/-- C2 amended witness: the amended statement evaluated at the concrete
invalid generator of the counterexample. -/
theorem C2_amended_witness :
    (MandelbrotGenerator.mk 2 2 (-1) (-(1/2)) 0 1).max_iterations < 0 ∧
    (generate_height_map (MandelbrotGenerator.mk 2 2 (-1) (-(1/2)) 0 1) none).2 =
      List.replicate 2 (List.replicate 2 1) :=
  ⟨by decide, C2_amended_no_validation (MandelbrotGenerator.mk 2 2 (-1) (-(1/2)) 0 1)
    (by decide)⟩

/-- C10: calling `generate_height_map` with custom parameters permanently
overwrites the stored generator fields `center_x`, `center_y`, `zoom` and
`max_iterations` (only those; width and height are untouched); a
subsequent call without custom parameters reuses the last-supplied
values (it returns the same map as the original call), and the result of
a parameterless call depends on the stored state, not only on the
explicit arguments: two generators identical except for their stored
zoom give different height maps for the same argument `none`. -/
theorem C10_custom_params_mutate_state (g : MandelbrotGenerator)
    (cp : CustomParams) :
    ((generate_height_map g (some cp)).1.center_x = cp.center_x.getD g.center_x ∧
     (generate_height_map g (some cp)).1.center_y = cp.center_y.getD g.center_y ∧
     (generate_height_map g (some cp)).1.zoom = cp.zoom.getD g.zoom ∧
     (generate_height_map g (some cp)).1.max_iterations =
       cp.max_iterations.getD g.max_iterations ∧
     (generate_height_map g (some cp)).1.width = g.width ∧
     (generate_height_map g (some cp)).1.height = g.height) ∧
    (generate_height_map (generate_height_map g (some cp)).1 none).2 =
      (generate_height_map g (some cp)).2 ∧
    (generate_height_map (mkGenerator 1 1 1) none).2 ≠
      (generate_height_map { mkGenerator 1 1 1 with zoom := 100 } none).2 :=
  ⟨⟨rfl, rfl, rfl, rfl, rfl, rfl⟩, rfl, by decide⟩

/-- C1: for every valid parameter set (positive width, height, zoom and
`max_iterations`, after merging any custom parameters), every value of
the height map returned by `generate_height_map` lies in `[0, 1]`; and
every value of the quantized ("blocky") height map is a multiple of
`0.1`. -/
theorem C1_heightmap_unit_interval (g : MandelbrotGenerator)
    (cp : Option CustomParams)
    (hw : 0 < (applyCustomParams g cp).width)
    (hh : 0 < (applyCustomParams g cp).height)
    (hz : 0 < (applyCustomParams g cp).zoom)
    (hM : 0 < (applyCustomParams g cp).max_iterations) :
    (∀ row ∈ (generate_height_map g cp).2, ∀ v ∈ row, 0 ≤ v ∧ v ≤ 1) ∧
    (∀ row ∈ quantize_height_map (generate_height_map g cp).2, ∀ v ∈ row,
      ∃ k : ℤ, v = (k : ℚ) / 10) := by
  have hQ : (0 : ℚ) < ((applyCustomParams g cp).max_iterations : ℚ) := by
    exact_mod_cast hM
  constructor
  · intro row hrow v hv
    simp only [generate_height_map] at hrow
    rcases List.mem_map.mp hrow with ⟨rowZ, hrowZ, hr⟩
    subst hr
    rcases List.mem_map.mp hv with ⟨n, hn, hvn⟩
    subst hvn
    simp only [calculate_mandelbrot] at hrowZ
    rcases List.mem_map.mp hrowZ with ⟨y, _, hy⟩
    subst hy
    rcases List.mem_map.mp hn with ⟨x, _, hx⟩
    subst hx
    constructor
    · apply div_nonneg _ hQ.le
      exact_mod_cast escapeIndex_nonneg _ _ hM.le
    · rw [div_le_one hQ]
      exact_mod_cast escapeIndex_le _ _ hM.le
  · intro row hrow v hv
    simp only [quantize_height_map] at hrow
    rcases List.mem_map.mp hrow with ⟨r0, _, hr⟩
    subst hr
    rcases List.mem_map.mp hv with ⟨u, _, hu⟩
    subst hu
    exact ⟨⌊u * 10⌋, rfl⟩

/-- C1 witness: the 2×2, one-iteration generator with default window is a
valid parameter set, and the value at cell (1,1) of its height map is in
`[0, 1]`. -/
theorem C1_witness :
    (0 : ℚ) ≤ getQ (generate_height_map (mkGenerator 2 2 1) none).2 1 1 ∧
    getQ (generate_height_map (mkGenerator 2 2 1) none).2 1 1 ≤ 1 := by
  have h := C1_heightmap_unit_interval (mkGenerator 2 2 1) none (by decide) (by decide)
    (by decide) (by decide)
  have hrow : (generate_height_map (mkGenerator 2 2 1) none).2.getD 1 [] ∈
      (generate_height_map (mkGenerator 2 2 1) none).2 := by
    rcases getD_cases ((generate_height_map (mkGenerator 2 2 1) none).2) 1 []
      with ⟨_, hmem⟩ | ⟨hlen, _⟩
    · exact hmem
    · exact absurd hlen (by decide)
  have hv : ((generate_height_map (mkGenerator 2 2 1) none).2.getD 1 []).getD 1 0 ∈
      (generate_height_map (mkGenerator 2 2 1) none).2.getD 1 [] := by
    rcases getD_cases ((generate_height_map (mkGenerator 2 2 1) none).2.getD 1 []) 1 0
      with ⟨_, hmem⟩ | ⟨hlen, _⟩
    · exact hmem
    · exact absurd hlen (by decide)
  exact ⟨(h.1 _ hrow _ hv).1, (h.1 _ hrow _ hv).2⟩

/-- C5: on a height map with both dimensions at least 2 (the domain of
`np.gradient` — on smaller maps the code raises `ValueError` inside
`calculate_slope` before any placement logic), with `N` the number of
eligible cells: if `N = 0` the placement returns the empty list (no
error); otherwise the number of returned sites is
`max(1, ⌊⌊√N·0.1⌋·density⌋)` clamped to at most `N` (the embedded base
count `Nat.sqrt N / 10` equals the specified `⌊√N × 0.1⌋`, third
conjunct); the site count never exceeds `N`; and with `density = 0` and
`N ≥ 1` exactly one site is returned. -/
theorem C5_site_count (st : RandState) (hm : List (List ℚ)) (asset_type : String)
    (density : ℚ) (seed : Option ℤ)
    (h2H : 2 ≤ hm.length) (h2W : 2 ≤ (hm.headD []).length) (N : ℕ)
    (hN : N = (eligibleSites hm (lookupAsset asset_type)).length) :
    (N = 0 → find_placement_locations st hm asset_type density seed = []) ∧
    (0 < N →
      (find_placement_locations st hm asset_type density seed).length =
        (min (max 1 ⌊((Nat.sqrt N / 10 : ℕ) : ℚ) * density⌋) (N : ℤ)).toNat) ∧
    ((Nat.sqrt N / 10 : ℕ) : ℤ) = ⌊Real.sqrt (N : ℝ) * (1/10)⌋ ∧
    (find_placement_locations st hm asset_type density seed).length ≤ N ∧
    (density = 0 → 1 ≤ N →
      (find_placement_locations st hm asset_type density seed).length = 1) := by
  subst hN
  refine ⟨?_, ?_, base_count_eq_floor_sqrt _, ?_, ?_⟩
  · intro h0
    exact find_placement_locations_empty _ _ _ _ _ h0
  · intro hpos
    rw [find_placement_locations_length_pos _ _ _ _ _ (by omega),
      max_one_pyTrunc_eq_floor]
  · by_cases h0 : (eligibleSites hm (lookupAsset asset_type)).length = 0
    · rw [find_placement_locations_empty _ _ _ _ _ h0]
      simp
    · rw [find_placement_locations_length_pos _ _ _ _ _ h0]
      have hmin := min_le_right
        (max 1 (pyTrunc
          ((Nat.sqrt (eligibleSites hm (lookupAsset asset_type)).length / 10 : ℕ)
            * density)))
        ((eligibleSites hm (lookupAsset asset_type)).length : ℤ)
      omega
  · intro hd hpos
    rw [find_placement_locations_length_pos _ _ _ _ _ (by omega), hd, mul_zero]
    have hp0 : pyTrunc 0 = 0 := by norm_num [pyTrunc]
    rw [hp0]
    have h1 : max (1 : ℤ) 0 = 1 := by norm_num
    rw [h1, min_eq_left (by exact_mod_cast hpos)]
    rfl

/-- C5 witness: the all-`0.5` 3×3 map has 9 eligible cells for `tree`,
and placement with density 1 returns the clamped count (here one site),
which does not exceed 9. -/
theorem C5_witness :
    (find_placement_locations ⟨0⟩
        [[(1/2 : ℚ), 1/2, 1/2], [1/2, 1/2, 1/2], [1/2, 1/2, 1/2]]
        "tree" 1 (some 0)).length =
      (min (max 1 ⌊((Nat.sqrt 9 / 10 : ℕ) : ℚ) * 1⌋) ((9 : ℕ) : ℤ)).toNat ∧
    (find_placement_locations ⟨0⟩
        [[(1/2 : ℚ), 1/2, 1/2], [1/2, 1/2, 1/2], [1/2, 1/2, 1/2]]
        "tree" 1 (some 0)).length ≤ 9 := by
  have h := C5_site_count ⟨0⟩
    [[(1/2 : ℚ), 1/2, 1/2], [1/2, 1/2, 1/2], [1/2, 1/2, 1/2]]
    "tree" 1 (some 0) (by decide) (by decide) 9 (by decide)
  exact ⟨h.2.1 (by norm_num), h.2.2.2.1⟩

/-- C7: the slope field is the finite-difference gradient magnitude
`√(gx² + gy²)` per cell (fourth conjunct), normalized by its own maximum
so that all values lie in `[0, 1]` (first conjunct); when the maximum is
0 the normalization branch is skipped — no division happens — and the
field is all zeros (second conjunct); in particular every all-flat
height map yields an all-zero slope field (third conjunct). -/
theorem C7_slope_field (hm : List (List ℚ)) (H W : ℕ)
    (hH : hm.length = H) (hW : ∀ row ∈ hm, row.length = W)
    (h2H : 2 ≤ H) (h2W : 2 ≤ W) :
    (∀ row ∈ normalized_slope hm, ∀ v ∈ row, 0 ≤ v ∧ v ≤ 1) ∧
    (npMaxR (calculate_slope hm).flatten = 0 →
      normalized_slope hm = calculate_slope hm ∧
      ∀ row ∈ normalized_slope hm, ∀ v ∈ row, v = 0) ∧
    (∀ cst : ℚ, (∀ row ∈ hm, ∀ v ∈ row, v = cst) →
      ∀ row ∈ normalized_slope hm, ∀ v ∈ row, v = 0) ∧
    (∀ y < H, ∀ x < W,
      getR (calculate_slope hm) y x =
        Real.sqrt ((getQ (gradX hm) y x ^ 2 + getQ (gradY hm) y x ^ 2 : ℚ) : ℝ)) := by
  have hvalB : ∀ v2 ∈ (calculate_slope hm).flatten,
      v2 ≤ npMaxR (calculate_slope hm).flatten :=
    fun v2 hv2 => le_foldl_max _ _ _ hv2
  have hb : npMaxR (calculate_slope hm).flatten = 0 →
      normalized_slope hm = calculate_slope hm ∧
      ∀ row ∈ normalized_slope hm, ∀ v ∈ row, v = 0 := by
    intro hm0
    have hns : normalized_slope hm = calculate_slope hm := by
      simp only [normalized_slope, hm0, lt_self_iff_false, if_false]
    refine ⟨hns, ?_⟩
    rw [hns]
    intro row hrow v hv
    have h0 : 0 ≤ v := calculate_slope_nonneg hm row hrow v hv
    have hvm : v ≤ 0 := hm0 ▸ hvalB v (List.mem_flatten.mpr ⟨row, hrow, hv⟩)
    linarith
  refine ⟨?_, hb, ?_, ?_⟩
  · intro row hrow v hv
    simp only [normalized_slope] at hrow
    by_cases hpos : 0 < npMaxR (calculate_slope hm).flatten
    · rw [if_pos hpos] at hrow
      rcases List.mem_map.mp hrow with ⟨r, hr, hrw⟩
      subst hrw
      rcases List.mem_map.mp hv with ⟨u, hu, huv⟩
      subst huv
      have h0 : 0 ≤ u := calculate_slope_nonneg hm r hr u hu
      have hum : u ≤ npMaxR (calculate_slope hm).flatten :=
        hvalB u (List.mem_flatten.mpr ⟨r, hr, hu⟩)
      exact ⟨div_nonneg h0 hpos.le, (div_le_one hpos).mpr hum⟩
    · rw [if_neg hpos] at hrow
      have h0 : 0 ≤ v := calculate_slope_nonneg hm row hrow v hv
      have hvm : v ≤ npMaxR (calculate_slope hm).flatten :=
        hvalB v (List.mem_flatten.mpr ⟨row, hrow, hv⟩)
      exact ⟨h0, by linarith [le_of_not_lt hpos]⟩
  · intro cst hflat
    exact (hb (npMaxR_eq_zero_of_all_zero
      (calculate_slope_flat hm cst W hW hflat))).2
  · intro y hy x hx
    have hyH2 : y < hm.length := by omega
    have hheadmem : hm.headD [] ∈ hm := by
      cases hm with
      | nil => simp at hyH2
      | cons a t => exact List.mem_cons_self a t
    have hwhead : (hm.headD []).length = W := hW _ hheadmem
    have hrowmem : hm.getD y [] ∈ hm := by
      rcases getD_cases hm y [] with ⟨_, hmem⟩ | ⟨hlen, _⟩
      · exact hmem
      · omega
    have hrowlen : (hm.getD y []).length = W := hW _ hrowmem
    have hgXlen : (gradX hm).length = hm.length := by simp [gradX]
    have hgYlen : (gradY hm).length = hm.length := by simp [gradY]
    have hsslen : (slopeSq hm).length = hm.length := by
      rw [slopeSq, List.length_zipWith, hgXlen, hgYlen, min_self]
    have hrX : (gradX hm).getD y [] =
        (List.range (hm.getD y []).length).map
          (fun i => grad1 (fun j => (hm.getD y []).getD j 0) (hm.getD y []).length i) :=
      getD_map_of_lt _ hm y [] [] hyH2
    have hrXlen : ((gradX hm).getD y []).length = W := by
      rw [hrX, List.length_map, List.length_range, hrowlen]
    have hrY : (gradY hm).getD y [] =
        (List.range (hm.headD []).length).map
          (fun x2 => grad1 (fun j => getQ hm j x2) hm.length y) := by
      rw [gradY]
      exact getD_range_map _ hm.length y [] hyH2
    have hrYlen : ((gradY hm).getD y []).length = W := by
      rw [hrY, List.length_map, List.length_range, hwhead]
    have hrowSS : (slopeSq hm).getD y [] =
        List.zipWith (fun a b : ℚ => a ^ 2 + b ^ 2)
          ((gradX hm).getD y []) ((gradY hm).getD y []) := by
      rw [slopeSq]
      exact getD_zipWith_of_lt _ _ _ y [] [] [] (by omega) (by omega)
    have hrowSSlen : ((slopeSq hm).getD y []).length = W := by
      rw [hrowSS, List.length_zipWith, hrXlen, hrYlen, min_self]
    rw [getR, calculate_slope]
    rw [getD_map_of_lt (List.map fun q : ℚ => Real.sqrt (q : ℝ)) (slopeSq hm)
      y [] [] (by omega)]
    rw [getD_map_of_lt (fun q : ℚ => Real.sqrt (q : ℝ)) ((slopeSq hm).getD y [])
      x 0 0 (by omega)]
    rw [hrowSS, getD_zipWith_of_lt _ _ _ x 0 0 0 (by omega) (by omega)]
    rfl

/-- C7 witness: on the flat 2×2 map the slope maximum is 0, so the
normalization is skipped (no division by zero) and the slope field is
returned unchanged. -/
theorem C7_witness :
    normalized_slope [[(0 : ℚ), 0], [0, 0]] = calculate_slope [[(0 : ℚ), 0], [0, 0]] := by
  have h := C7_slope_field [[(0 : ℚ), 0], [0, 0]] 2 2 rfl (by decide)
    (by norm_num) (by norm_num)
  have hflat : ∀ row ∈ [[(0 : ℚ), 0], [0, 0]], ∀ v ∈ row, v = 0 := by decide
  have hm0 : npMaxR (calculate_slope [[(0 : ℚ), 0], [0, 0]]).flatten = 0 :=
    npMaxR_eq_zero_of_all_zero
      (calculate_slope_flat [[(0 : ℚ), 0], [0, 0]] 0 2 (by decide) hflat)
  exact (h.2.1 hm0).1

/-- C8: on a height map with both dimensions at least 2 (the domain of
`np.gradient` — on smaller maps the code raises `ValueError` inside
`calculate_slope` before the masks are built), if the map has no water
cell (all heights above `0.3`) or no land cell (none above `0.3`), the
water-crossing mask — the overlap of the dilated water region with the
dilated land region — is false everywhere, so
`find_placement_locations` for a water-crossing category returns no
sites. -/
theorem C8_water_crossing_empty (st : RandState) (hm : List (List ℚ))
    (asset_type : String) (density : ℚ) (seed : Option ℤ)
    (h2H : 2 ≤ hm.length) (h2W : 2 ≤ (hm.headD []).length)
    (hk : (lookupAsset asset_type).placement = Placement.water_crossing)
    (hOr : (∀ y < hm.length, ∀ x < (hm.headD []).length, ¬ getQ hm y x ≤ 3/10) ∨
           (∀ y < hm.length, ∀ x < (hm.headD []).length, ¬ 3/10 < getQ hm y x)) :
    (∀ y < hm.length, ∀ x < (hm.headD []).length,
      placementMaskAt hm Placement.water_crossing y x = false) ∧
    find_placement_locations st hm asset_type density seed = [] := by
  have hmask := placementMask_crossing_false hm
    (hOr.imp (fun h y x hy hx => h y hy x hx) (fun h y x hy hx => h y hy x hx))
  refine ⟨fun y hy x hx => hmask y x hy hx, ?_⟩
  have hnil : eligibleSites hm (lookupAsset asset_type) = [] := by
    apply eligibleSites_eq_nil
    intro y x hy hx
    rw [combinedMaskAt, hk, hmask y x hy hx, Bool.and_false]
  exact find_placement_locations_empty _ _ _ _ _ (by rw [hnil]; rfl)

/-- C8 witness: the all-`0.5` 3×3 map has no water cell, so placing the
water-crossing category `bridge` returns no sites. -/
theorem C8_witness :
    find_placement_locations ⟨0⟩
      [[(1/2 : ℚ), 1/2, 1/2], [1/2, 1/2, 1/2], [1/2, 1/2, 1/2]]
      "bridge" 1 (some 0) = [] :=
  (C8_water_crossing_empty ⟨0⟩
    [[(1/2 : ℚ), 1/2, 1/2], [1/2, 1/2, 1/2], [1/2, 1/2, 1/2]]
    "bridge" 1 (some 0) (by decide) (by decide) (by decide)
    (Or.inl (by decide))).2

/-- C9: for a rectangular `W × H` height map, the mesh has `W·H` vertices
with grid vertex `(x, y)` at index `y·W + x` and position
`((x − W/2)/W, (y − H/2)/H, height[y][x]·scale)`, `2·(W−1)·(H−1)`
triangles, the two for cell `(x, y)` being `(i, i+1, i+W)` and
`(i+1, i+W+1, i+W)` with `i = y·W + x`, and every face index references a
valid vertex. -/
theorem C9_mesh_structure (hm : List (List ℚ)) (scale : ℚ) (W H : ℕ)
    (hH : hm.length = H) (hW : ∀ row ∈ hm, row.length = W) :
    (convert_to_3d_mesh_data hm scale).vertices.length = W * H ∧
    (∀ y < H, ∀ x < W,
      ((convert_to_3d_mesh_data hm scale).vertices)[y * W + x]? =
        some (((x : ℚ) - W / 2) / W, ((y : ℚ) - H / 2) / H, getQ hm y x * scale)) ∧
    (convert_to_3d_mesh_data hm scale).faces.length = 2 * (W - 1) * (H - 1) ∧
    (∀ y < H - 1, ∀ x < W - 1,
      ((convert_to_3d_mesh_data hm scale).faces)[2 * (y * (W - 1) + x)]? =
          some (y * W + x, y * W + x + 1, y * W + x + W) ∧
      ((convert_to_3d_mesh_data hm scale).faces)[2 * (y * (W - 1) + x) + 1]? =
          some (y * W + x + 1, y * W + x + W + 1, y * W + x + W)) ∧
    (∀ f ∈ (convert_to_3d_mesh_data hm scale).faces,
      f.1 < W * H ∧ f.2.1 < W * H ∧ f.2.2 < W * H) := by
  by_cases h0 : hm = []
  · subst h0
    simp only [List.length_nil] at hH
    subst hH
    refine ⟨by simp [convert_to_3d_mesh_data], ?_, ?_, ?_, ?_⟩
    · intro y hy
      omega
    · simp [convert_to_3d_mesh_data]
    · intro y hy
      omega
    · intro f hf
      simp [convert_to_3d_mesh_data] at hf
  · have hw : (hm.headD []).length = W := by
      cases hm with
      | nil => exact absurd rfl h0
      | cons r t => exact hW r (List.mem_cons_self r t)
    have hkV : ∀ y : ℕ, ((List.range W).map fun x : ℕ =>
        (((x : ℚ) - W / 2) / W, ((y : ℚ) - H / 2) / H, getQ hm y x * scale)).length = W := by
      intro y
      rw [List.length_map, List.length_range]
    have hkF2 : ∀ (y x : ℕ),
        ([(y * W + x, y * W + x + 1, y * W + x + W),
          (y * W + x + 1, y * W + x + W + 1, y * W + x + W)] : List (ℕ × ℕ × ℕ)).length
          = 2 := fun _ _ => rfl
    have hkF : ∀ y : ℕ, ((List.range (W - 1)).flatMap fun x : ℕ =>
        [(y * W + x, y * W + x + 1, y * W + x + W),
         (y * W + x + 1, y * W + x + W + 1, y * W + x + W)]).length = (W - 1) * 2 :=
      fun y => flatMap_const_length _ 2 (hkF2 y) (W - 1)
    simp only [convert_to_3d_mesh_data, hH, hw]
    refine ⟨?_, ?_, ?_, ?_, ?_⟩
    · rw [flatMap_const_length _ W hkV H, Nat.mul_comm]
    · intro y hy x hx
      rw [flatMap_const_getElem _ W hkV H y x hy hx]
      simp [List.getElem?_range hx]
    · rw [flatMap_const_length _ ((W - 1) * 2) hkF (H - 1)]
      ring
    · intro y hy x hx
      have hidx1 : 2 * (y * (W - 1) + x) = y * ((W - 1) * 2) + (x * 2 + 0) := by ring
      have hidx2 : 2 * (y * (W - 1) + x) + 1 = y * ((W - 1) * 2) + (x * 2 + 1) := by
        ring
      constructor
      · rw [hidx1, flatMap_const_getElem _ ((W - 1) * 2) hkF (H - 1) y (x * 2 + 0)
          hy (by omega)]
        rw [flatMap_const_getElem _ 2 (hkF2 y) (W - 1) x 0 hx (by omega)]
        rfl
      · rw [hidx2, flatMap_const_getElem _ ((W - 1) * 2) hkF (H - 1) y (x * 2 + 1)
          hy (by omega)]
        rw [flatMap_const_getElem _ 2 (hkF2 y) (W - 1) x 1 hx (by omega)]
        rfl
    · intro f hf
      rcases List.mem_flatMap.mp hf with ⟨y, hy, hf2⟩
      rcases List.mem_flatMap.mp hf2 with ⟨x, hx, hf3⟩
      have hyB : y < H - 1 := List.mem_range.mp hy
      have hxB : x < W - 1 := List.mem_range.mp hx
      have hy2 : y + 2 ≤ H := by omega
      have hx2 : x + 2 ≤ W := by omega
      have hmul : (y + 2) * W ≤ H * W := Nat.mul_le_mul_right W hy2
      have hexp : (y + 2) * W = y * W + W + W := by ring
      have hcomm : W * H = H * W := Nat.mul_comm W H
      have hbound : y * W + x + W + 1 < W * H := by
        rw [hcomm]
        have : y * W + x + W + 1 < (y + 2) * W := by
          rw [hexp]
          omega
        omega
      rcases List.mem_cons.mp hf3 with h1 | h1
      · subst h1
        dsimp only
        refine ⟨by omega, by omega, by omega⟩
      · rcases List.mem_cons.mp h1 with h2 | h2
        · subst h2
          dsimp only
          refine ⟨by omega, by omega, by omega⟩
        · cases h2

/-- C9 witness: a 2×2 height map yields exactly 4 vertices and 2
triangles, and the first triangle of cell (0,0) is `(0, 1, 2)`. -/
theorem C9_witness :
    (convert_to_3d_mesh_data [[(0 : ℚ), 1], [1/2, 1]] 50).vertices.length = 2 * 2 ∧
    (convert_to_3d_mesh_data [[(0 : ℚ), 1], [1/2, 1]] 50).faces.length =
      2 * (2 - 1) * (2 - 1) ∧
    ((convert_to_3d_mesh_data [[(0 : ℚ), 1], [1/2, 1]] 50).faces)[0]? =
      some (0, 1, 2) := by
  have h := C9_mesh_structure [[(0 : ℚ), 1], [1/2, 1]] 50 2 2 rfl (by decide)
  refine ⟨h.1, h.2.2.1, ?_⟩
  have h4 := (h.2.2.2.1 0 (by norm_num) 0 (by norm_num)).1
  simpa using h4

end MandelBro
